import Mathlib

/-!
Shallow embedding of the core logic of `advent-of-code-data` (aocd):
the puzzle input fetch/cache (`aocd/models.py: Puzzle.input_data`,
`aocd/get.py: get_data`), the answer submission pipeline
(`Puzzle._submit`, `Puzzle._check_already_solved`, `Puzzle._get_answer`,
`Puzzle._request_puzzle_page`, `Puzzle._save_correct_answer`), the
answer value coercion (`Puzzle._coerce_val`), the HTTP rate limiter
(`aocd/utils.py: HttpClient._limiter`), and the page scraper
(`aocd/examples.py: Page.from_raw`, `Puzzle.title`,
`Puzzle._get_examples`).

Strings are modelled as Lean `String`, with character-list helpers that
mirror the Python string operations used by the code (`str.strip`,
`str.rstrip("\r\n")`, `str.startswith`, the `in` substring test, and
`int(...)` parsing).
-/

namespace Aocd

/-- Whitespace characters stripped by Python `str.strip()` (the ASCII ones). -/
def isWs (c : Char) : Bool :=
  c = ' ' || c = '\t' || c = '\n' || c = '\x0d' || c = '\x0b' || c = '\x0c'

/-- Is the character one of the characters stripped by `rstrip("\r\n")`? -/
def isNl (c : Char) : Bool :=
  c = '\n' || c = '\x0d'

/-- Python `str.strip()` on a character list. -/
def stripL (l : List Char) : List Char :=
  ((l.dropWhile isWs).reverse.dropWhile isWs).reverse

/-- Python `str.strip()`. -/
def strip (s : String) : String :=
  String.mk (stripL s.data)

/-- Python `str.rstrip("\r\n")`: remove all trailing CR and LF characters. -/
def rstripNl (s : String) : String :=
  String.mk ((s.data.reverse.dropWhile isNl).reverse)

/-- Is `pat` a prefix of `l`? (Python `str.startswith`, on character lists.) -/
def isPrefixL : List Char → List Char → Bool
  | [], _ => true
  | _ :: _, [] => false
  | p :: ps, c :: cs => p = c && isPrefixL ps cs

/-- Python `str.startswith`. -/
def startsWithL (s pre : String) : Bool :=
  isPrefixL pre.data s.data

/-- Does `pat` occur as a contiguous sublist of `l`? (Python `in` on strings.) -/
def containsL : List Char → List Char → Bool
  | [], pat => pat.isEmpty
  | l@(_ :: t), pat => isPrefixL pat l || containsL t pat

/-- Python substring test `pat in s`. -/
def containsSub (s pat : String) : Bool :=
  containsL s.data pat.data

/-- Accumulate decimal digits; `none` if a non-digit is met. -/
def digitsValAux : List Char → Nat → Option Nat
  | [], acc => some acc
  | c :: cs, acc =>
    if c.isDigit then digitsValAux cs (acc * 10 + (c.toNat - 48)) else none

/-- Value of a nonempty all-digits character list, else `none`. -/
def digitsVal : List Char → Option Nat
  | [] => none
  | l => digitsValAux l 0

/-- Python `int(s)` on a string: optional surrounding whitespace, optional
sign, then decimal digits; `none` models a raised `ValueError`. -/
def pyInt (s : String) : Option Int :=
  match stripL s.data with
  | '-' :: rest => (digitsVal rest).map (fun n => -(n : Int))
  | '+' :: rest => (digitsVal rest).map (fun n => (n : Int))
  | l => (digitsVal l).map (fun n => (n : Int))

/-- Decimal digits of a natural number (fuel-based, fuel ≥ number of digits). -/
def natDigitsAux : Nat → Nat → List Char
  | 0, _ => []
  | _ + 1, 0 => []
  | fuel + 1, n => natDigitsAux fuel (n / 10) ++ [Char.ofNat (48 + n % 10)]

/-- Python `str(n)` for a natural number. -/
def natStr (n : Nat) : String :=
  if n = 0 then "0" else String.mk (natDigitsAux (n + 1) n)

/-- Python `str(n)` for an integer. -/
def intStr : Int → String
  | .ofNat n => natStr n
  | .negSucc m => "-" ++ natStr (m + 1)

/-- The exception kinds raised by the modelled code paths
(`aocd/exceptions.py`, plus Python built-ins). -/
inductive PyErr
  | puzzleLocked
  | puzzleUnsolved
  | aocdErr
  | parserErr
  | valueErr
  | attrErr
  | httpErr
deriving DecidableEq

/-- Equality of `Except` results is decidable when both components are. -/
instance {ε α : Type} [DecidableEq ε] [DecidableEq α] : DecidableEq (Except ε α) :=
  fun x y =>
    match x, y with
    | .ok a, .ok b =>
      if h : a = b then .isTrue (by rw [h]) else .isFalse (by simp [h])
    | .error a, .error b =>
      if h : a = b then .isTrue (by rw [h]) else .isFalse (by simp [h])
    | .ok _, .error _ => .isFalse (by simp)
    | .error _, .ok _ => .isFalse (by simp)

/-- An HTTP response as seen by the callers: status code and decoded body. -/
structure Response where
  status : Nat
  body : String
deriving DecidableEq

/-- Outcome of one `input_data` / `get_data` access: the value returned to
the caller (or the exception raised), the cache file contents afterwards,
and whether a network GET was issued. -/
structure FetchResult where
  result : Except PyErr String
  newCache : Option String
  getIssued : Bool
deriving DecidableEq

/-- `Puzzle.input_data` (aocd/models.py lines 203-231): serve the cache file
if present (stripping trailing CR/LF); otherwise GET the input, raising
`PuzzleLockedError` on 404 and `AocdError` on any other status ≥ 400, and
cache the unstripped body on success. -/
def inputData (cache : Option String) (resp : Response) : FetchResult :=
  match cache with
  | some data => ⟨.ok (rstripNl data), some data, false⟩
  | none =>
    if 400 ≤ resp.status then
      if resp.status = 404 then ⟨.error .puzzleLocked, none, true⟩
      else ⟨.error .aocdErr, none, true⟩
    else ⟨.ok (rstripNl resp.body), some resp.body, true⟩

/-- `get_data` (aocd/get.py lines 32-77): serve the memo file if present
(stripping trailing CR/LF); otherwise GET the input, raising `AocdError`
when `response.ok` is false (status ≥ 400), and cache the unstripped body. -/
def getData (cache : Option String) (resp : Response) : FetchResult :=
  match cache with
  | some data => ⟨.ok (rstripNl data), some data, false⟩
  | none =>
    if 400 ≤ resp.status then ⟨.error .aocdErr, none, true⟩
    else ⟨.ok (rstripNl resp.body), some resp.body, true⟩

/-- The two parts of a daily puzzle. -/
inductive Part
  | a
  | b
deriving DecidableEq

/-- One entry of the per-puzzle submission log (`_post.json`):
part, submitted value, timestamp, and the server message. -/
structure SubmitRecord where
  part : Part
  value : String
  message : String
  when : String
deriving DecidableEq

/-- The per-puzzle-persistent state that `Puzzle._submit` and its helpers
read and write: the day number, the contents of the two answer cache
files, the submission log, and the observable behaviour of a puzzle-page
GET (whether it returns 200, and which "Your puzzle answer was" values
the page reveals for each part). -/
structure PuzzleState where
  day : Nat
  answerA : Option String
  answerB : Option String
  submitLog : List SubmitRecord
  pageOk : Bool
  pageAnswerA : Option String
  pageAnswerB : Option String
deriving DecidableEq

/-- Contents of `answer_{part}_path` for the given part. -/
def answerFile (s : PuzzleState) : Part → Option String
  | .a => s.answerA
  | .b => s.answerB

/-- Replace the contents of `answer_{part}_path`. -/
def setAnswerFile (s : PuzzleState) (p : Part) (v : String) : PuzzleState :=
  match p with
  | .a => { s with answerA := some v }
  | .b => { s with answerB := some v }

/-- What `_save_correct_answer` did: first write, skipped identical
rewrite, or overwrite of a different previous value (an info-level log
line in the code, not an exception). -/
inductive SaveAction
  | saved
  | alreadySaved
  | overwrote
deriving DecidableEq

/-- `Puzzle._save_correct_answer` (aocd/models.py lines 600-615) acting on
the previous contents of the answer file: strips the value, skips the
write when the stripped value equals the existing contents, otherwise
writes it (overwriting any different previous answer). -/
def saveCorrectAnswer (prev : Option String) (value : String) :
    Option String × SaveAction :=
  let txt := strip value
  match prev with
  | some p => if txt = p then (some p, .alreadySaved) else (some txt, .overwrote)
  | none => (some txt, .saved)

/-- `_save_correct_answer` applied to the puzzle state for a given part. -/
def saveCorrectAnswerS (s : PuzzleState) (value : String) (p : Part) :
    PuzzleState × SaveAction :=
  match saveCorrectAnswer (answerFile s p) value with
  | (some txt, act) => (setAnswerFile s p txt, act)
  | (none, act) => (s, act)

/-- `Puzzle._request_puzzle_page` (aocd/models.py lines 709-743): GET the
puzzle page (non-200 raises `AocdError`), then save any
"Your puzzle answer was" values found via `_save_correct_answer`.
On day 25 a fully-solved page has exactly one such paragraph; two hits
on day 25 would fail the `[pa] = hits` unpacking (a `ValueError`). -/
def requestPuzzlePage (s : PuzzleState) : Except PyErr PuzzleState :=
  if !s.pageOk then .error .httpErr
  else
    match s.pageAnswerA, s.pageAnswerB with
    | some va, some vb =>
      if s.day = 25 then .error .valueErr
      else .ok (saveCorrectAnswerS (saveCorrectAnswerS s va .a).1 vb .b).1
    | some va, none => .ok (saveCorrectAnswerS s va .a).1
    | none, _ => .ok s

/-- `Puzzle._get_answer` (aocd/models.py lines 637-654): day-25 part b is
the empty string; else read the answer cache file (stripped); on a miss,
fetch the puzzle page (which may populate the cache) and re-check;
still missing raises `PuzzleUnsolvedError`. Returns the answer together
with the possibly-updated state. -/
def getAnswer (s : PuzzleState) (part : Part) : Except PyErr (String × PuzzleState) :=
  if part = .b ∧ s.day = 25 then .ok ("", s)
  else
    match answerFile s part with
    | some txt => .ok (strip txt, s)
    | none =>
      match requestPuzzlePage s with
      | .error e => .error e
      | .ok s' =>
        match answerFile s' part with
        | some txt => .ok (strip txt, s')
        | none => .error .puzzleUnsolved

/-- Python `getattr(self, "answer_a"/"answer_b", None)`: the answer
property turns `PuzzleUnsolvedError` into a hidden attribute, so the
`getattr` yields `none`; other exceptions propagate. -/
def answerProp (s : PuzzleState) (part : Part) :
    Except PyErr (Option String × PuzzleState) :=
  match getAnswer s part with
  | .ok (v, s') => .ok (some v, s')
  | .error .puzzleUnsolved => .ok (none, s)
  | .error e => .error e

/-- The message variants built by `Puzzle._check_already_solved`. -/
inductive CheckMsg
  | sameAnswer (ans : String)
  | differentAnswer (ans : String)
deriving DecidableEq

/-- `Puzzle._check_already_solved` (aocd/models.py lines 582-598): look up
the known answer; an unsolved part (or an empty known answer) yields
`none` (the submit continues); otherwise a "Part x already solved"
message is produced and the submit stops. -/
def checkAlreadySolved (s : PuzzleState) (guess : String) (part : Part) :
    Except PyErr (Option CheckMsg × PuzzleState) :=
  match getAnswer s part with
  | .ok (ans, s') =>
    if ans = "" then .ok (none, s')
    else if ans = guess then .ok (some (.sameAnswer ans), s')
    else .ok (some (.differentAnswer ans), s')
  | .error .puzzleUnsolved => .ok (none, s)
  | .error e => .error e

/-- Result of scanning one record of the previous-submission loop body is
either to continue, or to exit the whole submit. -/
inductive LoopResult
  | proceed
  | refused
deriving DecidableEq

/-- The two server messages the previous-submission loop skips over. -/
def skipPrefixed (msg : String) : Bool :=
  startsWithL msg "You gave an answer too recently" ||
  startsWithL msg "You don\x27t seem to be solving the right level"

/-- One iteration of the `for result in previous_submits` loop of
`Puzzle._submit` (aocd/models.py lines 448-506): `none` means the loop
continues with the next record; `some x` means the submit exits with `x`
(a local refusal, or a raised `ValueError` when `int(result["value"])`
fails on a too-high/too-low record). -/
def recordAction (r : SubmitRecord) (value : String) (vai : Option Int)
    (part : Part) : Option (Except PyErr LoopResult) :=
  if r.part ≠ part ∨ skipPrefixed r.message then none
  else if startsWithL r.message "That\x27s the right answer" then
    -- a different value is certainly incorrect; an identical value falls
    -- through to the repeated-guess check, which also refuses
    if value ≠ r.value then some (.ok .refused) else some (.ok .refused)
  else if containsSub r.message "your answer is too high" then
    match vai with
    | none => some (.ok .refused)
    | some g' =>
      match pyInt r.value with
      | none => some (.error .valueErr)
      | some g =>
        if g < g' then some (.ok .refused)
        else if r.value ≠ value then none
        else some (.ok .refused)
  else if containsSub r.message "your answer is too low" then
    match vai with
    | none => some (.ok .refused)
    | some g' =>
      match pyInt r.value with
      | none => some (.error .valueErr)
      | some g =>
        if g' < g then some (.ok .refused)
        else if r.value ≠ value then none
        else some (.ok .refused)
  else if r.value ≠ value then none
  else some (.ok .refused)

/-- The whole previous-submission loop of `Puzzle._submit`. -/
def checkPrev (value : String) (vai : Option Int) (part : Part) :
    List SubmitRecord → Except PyErr LoopResult
  | [] => .ok .proceed
  | r :: rs =>
    match recordAction r value vai part with
    | some e => e
    | none => checkPrev value vai part rs

/-- How a `_submit` call ends, as far as the network is concerned:
an exception was raised, the guess was refused locally (a printed
message, no POST), or a POST to the answer endpoint was issued. -/
inductive Decision
  | raised (e : PyErr)
  | refusedLocal
  | posted
deriving DecidableEq

/-- The tail of the pre-POST pipeline: `_check_already_solved`, then POST. -/
def afterChecks (s : PuzzleState) (value : String) (part : Part) : Decision :=
  match checkAlreadySolved s value part with
  | .error e => .raised e
  | .ok (some _, _) => .refusedLocal
  | .ok (none, _) => .posted

/-- `Puzzle._submit` (aocd/models.py lines 428-524) up to the decision of
whether a network POST is issued: refuse non-answers, scan the
submission log, refuse a part-b guess equal to the known part-a answer
(the `getattr` may itself fetch the puzzle page), then
`_check_already_solved`, and only then POST. -/
def submitDecision (s : PuzzleState) (value : String) (part : Part) : Decision :=
  if value = "" ∨ value = "None" then .raised .aocdErr
  else
    match checkPrev value (pyInt value) part s.submitLog with
    | .error e => .raised e
    | .ok .refused => .refusedLocal
    | .ok .proceed =>
      if part = .b then
        match answerProp s .a with
        | .error e => .raised e
        | .ok (optA, s') =>
          if optA = some value then .raised .aocdErr
          else afterChecks s' value part
      else afterChecks s value part

/-- Outcome of the `answer_a`/`answer_b` setter. -/
inductive SetterOutcome
  | noop
  | submitted (d : Decision)
  | raised (e : PyErr)
deriving DecidableEq

/-- The `answer_a`/`answer_b` setter (aocd/models.py lines 332-346 and
364-378): if the part is already solved with the same (already coerced)
value, return without submitting; otherwise call `_submit`. -/
def answerSetter (s : PuzzleState) (val : String) (part : Part) : SetterOutcome :=
  match answerProp s part with
  | .error e => .raised e
  | .ok (optV, s') =>
    if optV = some val then .noop
    else .submitted (submitDecision s' val part)

/-- A Python value passed as an answer: a string, an `int`, a `float`
(idealised as a rational; `is_integer()` means denominator 1), or a
`complex` with rational real/imaginary components. -/
inductive PyVal
  | str (s : String)
  | intV (n : Int)
  | floatV (q : ℚ)
  | complexV (re im : ℚ)
deriving DecidableEq

/-- `Puzzle._coerce_val` (aocd/models.py lines 289-319), without the numpy
scalar branch: a float/complex with zero imaginary part and integral
real part becomes `int(val.real)` and is flagged as coerced (the code
logs a warning exactly when `coerced` is set); any `int` is converted by
`str(...)` without the flag; everything else passes through unchanged.
Returns the resulting value and the `coerced` flag. -/
def coerceVal : PyVal → PyVal × Bool
  | .str s => (.str s, false)
  | .intV n => (.str (intStr n), false)
  | .floatV q =>
    if q.den = 1 then (.str (intStr q.num), true) else (.floatV q, false)
  | .complexV re im =>
    if im = 0 ∧ re.den = 1 then (.str (intStr re.num), true)
    else (.complexV re im, false)

/-- The process-local state of `HttpClient._limiter`
(aocd/utils.py lines 49-78): the sliding window of the last (up to) 4
request timestamps and the current cooloff. Timestamps and durations are
idealised as rationals. -/
structure Limiter where
  history : List ℚ
  cooloff : ℚ
deriving DecidableEq

/-- The limiter state built by `HttpClient.__init__`: a window of four
copies of `t0 - 3` (3.0 is `_max_t`) and a cooloff of 0.16 seconds. -/
def initLimiter (t0 : ℚ) : Limiter :=
  ⟨List.replicate 4 (t0 - 3), 4 / 25⟩

/-- `deque(..., maxlen=4).append`: append and keep the last 4 entries. -/
def deqAppend (h : List ℚ) (now : ℚ) : List ℚ :=
  let h' := h ++ [now]
  h'.drop (h'.length - 4)

/-- `HttpClient._limiter` (aocd/utils.py lines 60-78): read the oldest of
the last 4 timestamps; if it is within `_max_t = 3` seconds of now,
sleep for the current cooloff, double the cooloff and cap it at 10;
in every case append the current timestamp to the window. Returns the
new state and the slept duration, if any. -/
def limiterStep (st : Limiter) (now : ℚ) : Limiter × Option ℚ :=
  if now - st.history.headD 0 < 3 then
    (⟨deqAppend st.history now, min (st.cooloff * 2) 10⟩, some st.cooloff)
  else
    (⟨deqAppend st.history now, st.cooloff⟩, none)

/-- Run the limiter over a sequence of request times. -/
def runLimiter (st : Limiter) : List ℚ → Limiter
  | [] => st
  | t :: ts => runLimiter (limiterStep st t).1 ts

/-- The parts of `HttpClient` state that `get`/`post` touch. -/
structure HttpState where
  limiter : Limiter
  getCount : Nat
  postCount : Nat
deriving DecidableEq

/-- `HttpClient.get` (aocd/utils.py lines 80-91): run the limiter, then
issue the GET and bump the GET counter. Returns the new state and the
duration slept by the limiter, if any. -/
def httpGet (st : HttpState) (now : ℚ) : HttpState × Option ℚ :=
  match limiterStep st.limiter now with
  | (l, slept) => ({ st with limiter := l, getCount := st.getCount + 1 }, slept)

/-- `HttpClient.post` (aocd/utils.py lines 93-107): run the limiter, then
issue the POST and bump the POST counter. -/
def httpPost (st : HttpState) (now : ℚ) : HttpState × Option ℚ :=
  match limiterStep st.limiter now with
  | (l, slept) => ({ st with limiter := l, postCount := st.postCount + 1 }, slept)

/-- The pieces of an HTML page that `Page.from_raw` inspects: the text of
the `<title>` tag (absent tag means `soup.title` is `None`, so `.text`
raises `AttributeError`) and the list of `<article>` elements (as raw
strings). -/
structure Html where
  title : Option String
  articles : List String
deriving DecidableEq

/-- Match the title against the anchored pattern
`Day (\d{1,2}) - Advent of Code (\d{4})`, returning (day, year). -/
def matchTitle (t : String) : Option (Nat × Nat) :=
  if isPrefixL "Day ".data t.data then
    let rest := t.data.drop 4
    let ds := rest.takeWhile Char.isDigit
    let rest2 := rest.dropWhile Char.isDigit
    if ds.length = 0 ∨ 2 < ds.length then none
    else if isPrefixL " - Advent of Code ".data rest2 then
      let rest3 := rest2.drop 18
      let ys := rest3.takeWhile Char.isDigit
      let rest4 := rest3.dropWhile Char.isDigit
      if ys.length = 4 ∧ rest4 = [] then
        match digitsVal ds, digitsVal ys with
        | some d, some y => some (d, y)
        | _, _ => none
      else none
    else none
  else none

/-- The fields of `examples.Page` that the claims are about. -/
structure Page where
  year : Nat
  day : Nat
  aRaw : String
  bRaw : Option String
deriving DecidableEq

/-- `Page.from_raw` (aocd/examples.py lines 46-78): a title that does not
match the pattern raises `ExampleParserError`; zero `<article>` tags or
more than two of them raise `ExampleParserError`; one or two articles
build the page (part b locked when only one). -/
def fromRaw (h : Html) : Except PyErr Page :=
  match h.title with
  | none => .error .attrErr
  | some t =>
    match matchTitle t with
    | none => .error .parserErr
    | some (d, y) =>
      match h.articles with
      | [] => .error .parserErr
      | [a] => .ok ⟨y, d, a, none⟩
      | [a, b] => .ok ⟨y, d, a, some b⟩
      | _ => .error .parserErr

/-- `aocd.examples.Example`: example input with optional answers/context. -/
structure Example where
  inputData : String
  answerA : Option String
  answerB : Option String
  extra : Option String
deriving DecidableEq

/-- `Puzzle._get_examples` (aocd/models.py lines 246-262): build the page
and run the example parser plugin; any exception from either is caught,
a warning is logged, and the empty list is returned. The boolean records
whether the warning path was taken. -/
def getExamples (exParser : Page → Except PyErr (List Example)) (h : Html) :
    List Example × Bool :=
  match fromRaw h with
  | .error _ => ([], true)
  | .ok page =>
    match exParser page with
    | .error _ => ([], true)
    | .ok res => (res, false)

/-- Drop `pre` from the front of `l` if it is a prefix (Python
`str.removeprefix`). -/
def removePrefixL (l pat : List Char) : List Char :=
  if isPrefixL pat l then l.drop pat.length else l

/-- Drop `pat` from the end of `l` if it is a suffix (Python
`str.removesuffix`). -/
def removeSuffixL (l pat : List Char) : List Char :=
  if isPrefixL pat.reverse l.reverse then l.take (l.length - pat.length) else l

/-- `Puzzle.title` (aocd/models.py lines 264-279): no `<h2>` raises
`AocdError("heading not found")`; an `<h2>` text not of the form
`--- Day {day}: ... ---` raises `AocdError`; otherwise the prefix and
suffix are stripped off. -/
def titleOf (day : Nat) (h2 : Option String) : Except PyErr String :=
  match h2 with
  | none => .error .aocdErr
  | some txt =>
    let pre := "--- Day " ++ natStr day ++ ": "
    let suf := " ---"
    if startsWithL txt pre && isPrefixL suf.data.reverse txt.data.reverse then
      .ok (String.mk (removeSuffixL (removePrefixL txt.data pre.data) suf.data))
    else .error .aocdErr

/-- The `answers` property (aocd/models.py lines 393-399): the pair
`(answer_a, answer_b)`; an unsolved part hides the attribute, which the
tuple access turns into `AttributeError`. -/
def answersPair (s : PuzzleState) : Except PyErr ((String × String) × PuzzleState) :=
  match getAnswer s .a with
  | .error .puzzleUnsolved => .error .attrErr
  | .error e => .error e
  | .ok (va, s') =>
    match getAnswer s' .b with
    | .error .puzzleUnsolved => .error .attrErr
    | .error e => .error e
    | .ok (vb, s'') => .ok ((va, vb), s'')

end Aocd

namespace Aocd

/-- A submission-log record saying the guess 100 was too high. -/
def tooHighRecord : SubmitRecord :=
  ⟨.a, "100",
    "That\x27s not the right answer; your answer is too high; please wait one minute before trying again.",
    "2022-12-01 12:00:00"⟩

/-- A puzzle state whose log knows that 100 was too high for part a. -/
def tooHighState : PuzzleState := ⟨1, none, none, [tooHighRecord], true, none, none⟩

/-- A puzzle state whose log knows that 5 was too high for part a. -/
def tooHighFiveState : PuzzleState :=
  ⟨1, none, none,
    [⟨.a, "5",
      "That\x27s not the right answer; your answer is too high; please wait one minute before trying again.",
      "2022-12-01 12:00:00"⟩],
    true, none, none⟩

/-- A puzzle state whose only part-a record carries a wrong-level message
that also mentions the too-high bound. -/
def wrongLevelState : PuzzleState :=
  ⟨1, none, none,
    [⟨.a, "5",
      "You don\x27t seem to be solving the right level; your answer is too high.",
      "2022-12-01 12:00:00"⟩],
    true, none, none⟩

/-- A puzzle state with a cached correct part-a answer 42. -/
def solvedAState : PuzzleState := ⟨1, some "42", none, [], true, none, none⟩

/-- A day-25 puzzle state with a cached part-a answer. -/
def day25State : PuzzleState := ⟨25, some "42", none, [], false, none, none⟩

/-- An HTML page whose title does not match the puzzle-title pattern. -/
def badTitleHtml : Html := ⟨some "Not a puzzle page", ["<article>x</article>"]⟩

/-- A sample example parser that always succeeds on a parsed page. -/
def demoParser : Page → Except PyErr (List Example) :=
  fun p => .ok [⟨p.aRaw, some "1", none, none⟩]

theorem stripL_eq_rdropWhile (l : List Char) :
    stripL l = List.rdropWhile isWs (l.dropWhile isWs) := rfl

theorem dropWhile_stripL (l : List Char) :
    (stripL l).dropWhile isWs = stripL l := by
  rw [stripL_eq_rdropWhile]
  have hm : (l.dropWhile isWs).dropWhile isWs = l.dropWhile isWs :=
    List.dropWhile_idempotent isWs l
  obtain ⟨suf, hsuf⟩ := List.rdropWhile_prefix isWs (l.dropWhile isWs)
  rcases hk : List.rdropWhile isWs (l.dropWhile isWs) with _ | ⟨c, t⟩
  · rfl
  · rw [hk] at hsuf
    rw [← hsuf] at hm
    rw [List.cons_append, List.dropWhile_cons] at hm
    by_cases hc : isWs c
    · rw [if_pos hc] at hm
      have hle := (List.dropWhile_suffix (l := t ++ suf) isWs).sublist.length_le
      have h2 := congrArg List.length hm
      simp only [List.length_cons] at h2
      omega
    · rw [List.dropWhile_cons, if_neg hc]
  
theorem stripL_idem (l : List Char) : stripL (stripL l) = stripL l := by
  conv_lhs => rw [stripL_eq_rdropWhile (stripL l)]
  rw [dropWhile_stripL, stripL_eq_rdropWhile, List.rdropWhile_idempotent]

theorem strip_strip (s : String) : strip (strip s) = strip s := by
  unfold strip
  exact congrArg String.mk (stripL_idem s.data)

theorem setAnswerFile_meta (s : PuzzleState) (p : Part) (v : String) :
    (setAnswerFile s p v).day = s.day ∧
    (setAnswerFile s p v).submitLog = s.submitLog ∧
    (setAnswerFile s p v).pageOk = s.pageOk ∧
    (setAnswerFile s p v).pageAnswerA = s.pageAnswerA ∧
    (setAnswerFile s p v).pageAnswerB = s.pageAnswerB := by
  cases p <;> simp [setAnswerFile]

theorem saveCorrectAnswerS_meta (s : PuzzleState) (v : String) (p : Part) :
    ((saveCorrectAnswerS s v p).1).day = s.day ∧
    ((saveCorrectAnswerS s v p).1).submitLog = s.submitLog := by
  unfold saveCorrectAnswerS
  rcases h : saveCorrectAnswer (answerFile s p) v with ⟨of, act⟩
  cases of with
  | none => simp
  | some txt =>
    simp only
    exact ⟨(setAnswerFile_meta s p txt).1, (setAnswerFile_meta s p txt).2.1⟩

theorem requestPuzzlePage_meta (s s' : PuzzleState)
    (h : requestPuzzlePage s = .ok s') :
    s'.day = s.day ∧ s'.submitLog = s.submitLog := by
  unfold requestPuzzlePage at h
  by_cases hok : s.pageOk
  · rw [if_neg (by simp [hok])] at h
    rcases ha : s.pageAnswerA with _ | va <;> rcases hb : s.pageAnswerB with _ | vb <;>
      rw [ha, hb] at h <;> simp at h
    · exact h ▸ ⟨rfl, rfl⟩
    · exact h ▸ ⟨rfl, rfl⟩
    · exact h ▸ ⟨(saveCorrectAnswerS_meta s va .a).1, (saveCorrectAnswerS_meta s va .a).2⟩
    · by_cases h25 : s.day = 25
      · simp [h25] at h
      · rw [if_neg h25] at h
        simp at h
        subst h
        set s1 := (saveCorrectAnswerS s va .a).1
        refine ⟨?_, ?_⟩
        · rw [(saveCorrectAnswerS_meta s1 vb .b).1, (saveCorrectAnswerS_meta s va .a).1]
        · rw [(saveCorrectAnswerS_meta s1 vb .b).2, (saveCorrectAnswerS_meta s va .a).2]
  · simp [hok] at h

end Aocd

namespace Aocd

theorem setAnswerFile_a_b (s : PuzzleState) (v : String) :
    answerFile (setAnswerFile s .a v) .b = answerFile s .b := by
  simp [setAnswerFile, answerFile]

theorem saveCorrectAnswerS_a_preserves_b (s : PuzzleState) (v : String) :
    answerFile (saveCorrectAnswerS s v .a).1 .b = answerFile s .b := by
  unfold saveCorrectAnswerS
  rcases h : saveCorrectAnswer (answerFile s .a) v with ⟨of, act⟩
  cases of with
  | none => simp
  | some txt => simpa using setAnswerFile_a_b s txt

theorem saveCorrectAnswerS_b_file (s : PuzzleState) (v : String) :
    answerFile (saveCorrectAnswerS s v .b).1 .b = answerFile s .b ∨
    answerFile (saveCorrectAnswerS s v .b).1 .b = some (strip v) := by
  unfold saveCorrectAnswerS saveCorrectAnswer
  rcases h : answerFile s .b with _ | prev
  · right
    simp [h, setAnswerFile, answerFile]
  · by_cases he : strip v = prev
    · left
      simp [h, he, setAnswerFile, answerFile]
    · right
      simp [h, he, setAnswerFile, answerFile]

theorem requestPuzzlePage_b_file (s s' : PuzzleState)
    (h : requestPuzzlePage s = .ok s') :
    answerFile s' .b = answerFile s .b ∨
    (∃ vb, s.pageAnswerB = some vb ∧ answerFile s' .b = some (strip vb)) := by
  unfold requestPuzzlePage at h
  by_cases hok : s.pageOk
  · rw [if_neg (by simp [hok])] at h
    rcases ha : s.pageAnswerA with _ | va <;> rcases hb : s.pageAnswerB with _ | vb <;>
      rw [ha, hb] at h <;> simp at h
    · left; rw [← h]
    · left; rw [← h]
    · left
      rw [← h]
      exact saveCorrectAnswerS_a_preserves_b s va
    · by_cases h25 : s.day = 25
      · simp [h25] at h
      · rw [if_neg h25] at h
        simp at h
        subst h
        rcases saveCorrectAnswerS_b_file (saveCorrectAnswerS s va .a).1 vb with hc | hc
        · left
          rw [hc]
          exact saveCorrectAnswerS_a_preserves_b s va
        · right
          exact ⟨vb, rfl, hc⟩
  · simp [hok] at h

theorem getAnswer_meta (s : PuzzleState) (p : Part) (v : String) (s' : PuzzleState)
    (h : getAnswer s p = .ok (v, s')) :
    (s'.day = s.day ∧ s'.submitLog = s.submitLog) ∧
    (s' = s ∨ requestPuzzlePage s = .ok s') := by
  unfold getAnswer at h
  by_cases hc : p = .b ∧ s.day = 25
  · rw [if_pos hc] at h
    simp at h
    rw [← h.2]
    exact ⟨⟨rfl, rfl⟩, Or.inl rfl⟩
  · rw [if_neg hc] at h
    rcases haf : answerFile s p with _ | txt
    · simp only [haf] at h
      rcases hrp : requestPuzzlePage s with e | s1
      · simp only [hrp] at h
        simp at h
      · simp only [hrp] at h
        rcases haf2 : answerFile s1 p with _ | txt2
        · simp only [haf2] at h
          simp at h
        · simp only [haf2] at h
          simp at h
          rw [← h.2]
          exact ⟨requestPuzzlePage_meta s s1 hrp, Or.inr rfl⟩
    · simp only [haf] at h
      simp at h
      rw [← h.2]
      exact ⟨⟨rfl, rfl⟩, Or.inl rfl⟩

theorem answerProp_meta (s : PuzzleState) (p : Part) (o : Option String) (s' : PuzzleState)
    (h : answerProp s p = .ok (o, s')) :
    (s'.day = s.day ∧ s'.submitLog = s.submitLog) ∧
    (s' = s ∨ requestPuzzlePage s = .ok s') := by
  unfold answerProp at h
  rcases hg : getAnswer s p with e | vs
  · simp only [hg] at h
    cases e <;> simp at h
    rw [← h.2]
    exact ⟨⟨rfl, rfl⟩, Or.inl rfl⟩
  · rcases vs with ⟨v, s1⟩
    simp only [hg] at h
    simp at h
    rw [← h.2]
    exact getAnswer_meta s p v s1 hg

theorem answerProp_a_b_file (s : PuzzleState) (o : Option String) (s' : PuzzleState)
    (h : answerProp s .a = .ok (o, s')) :
    answerFile s' .b = answerFile s .b ∨
    (∃ vb, s.pageAnswerB = some vb ∧ answerFile s' .b = some (strip vb)) := by
  rcases (answerProp_meta s .a o s' h).2 with he | hpage
  · left
    rw [he]
  · exact requestPuzzlePage_b_file s s' hpage

end Aocd

namespace Aocd

theorem recordAction_ne_proceed (r : SubmitRecord) (v : String) (vai : Option Int)
    (p : Part) : recordAction r v vai p ≠ some (.ok .proceed) := by
  unfold recordAction
  repeat' split
  all_goals simp

theorem checkPrev_ne_proceed (v : String) (vai : Option Int) (p : Part)
    (r : SubmitRecord) (hact : recordAction r v vai p ≠ none) :
    ∀ log, r ∈ log → checkPrev v vai p log ≠ .ok .proceed := by
  intro log
  induction log with
  | nil => intro h; cases h
  | cons x xs ih =>
    intro hmem hcontra
    unfold checkPrev at hcontra
    rcases List.mem_cons.mp hmem with heq | hmem'
    · subst heq
      rcases hra : recordAction r v vai p with _ | e
      · exact hact hra
      · simp only [hra] at hcontra
        exact recordAction_ne_proceed r v vai p (by rw [hra, hcontra])
    · rcases hra : recordAction x v vai p with _ | e
      · simp only [hra] at hcontra
        exact ih hmem' hcontra
      · simp only [hra] at hcontra
        exact recordAction_ne_proceed x v vai p (by rw [hra, hcontra])

theorem submitDecision_ne_posted_of_loop (s : PuzzleState) (v : String) (p : Part)
    (h : checkPrev v (pyInt v) p s.submitLog ≠ .ok .proceed) :
    submitDecision s v p ≠ .posted := by
  unfold submitDecision
  split
  · simp
  · rcases hcp : checkPrev v (pyInt v) p s.submitLog with e | lr
    · simp
    · cases lr with
      | proceed => exact absurd hcp h
      | refused => simp



theorem isPrefixL_cons (a : Char) (ps l : List Char)
    (h : isPrefixL (a :: ps) l = true) : ∃ t, l = a :: t := by
  cases l with
  | nil => simp [isPrefixL] at h
  | cons c t =>
    simp [isPrefixL] at h
    exact ⟨t, by rw [h.1]⟩

theorem rightAnswer_not_skipPrefixed (m : String)
    (h : startsWithL m "That\x27s the right answer" = true) :
    skipPrefixed m = false := by
  unfold startsWithL at h
  obtain ⟨t, ht⟩ := isPrefixL_cons 'T' _ m.data h
  unfold skipPrefixed startsWithL
  rw [show ("You gave an answer too recently").data
      = 'Y' :: ("ou gave an answer too recently").data from rfl]
  rw [show ("You don\x27t seem to be solving the right level").data
      = 'Y' :: ("ou don\x27t seem to be solving the right level").data from rfl]
  rw [ht]
  simp [isPrefixL]

theorem recordAction_hit (r : SubmitRecord) (v : String) (p : Part)
    (hpart : r.part = p) (hskip : skipPrefixed r.message = false)
    (hcond :
      startsWithL r.message "That\x27s the right answer" = true ∨
      (containsSub r.message "your answer is too high" = true ∧
        (pyInt v = none ∨ v = r.value ∨
          (∃ g g', pyInt r.value = some g ∧ pyInt v = some g' ∧ g < g'))) ∨
      (containsSub r.message "your answer is too low" = true ∧
        containsSub r.message "your answer is too high" = false ∧
        (pyInt v = none ∨ v = r.value ∨
          (∃ g g', pyInt r.value = some g ∧ pyInt v = some g' ∧ g' < g))) ∨
      r.value = v) :
    recordAction r v (pyInt v) p ≠ none := by
  unfold recordAction
  rw [if_neg (by simp [hpart, hskip])]
  by_cases hra : startsWithL r.message "That\x27s the right answer" = true
  · rw [if_pos hra]
    split <;> simp
  · rw [if_neg hra]
    by_cases hhigh : containsSub r.message "your answer is too high" = true
    · rw [if_pos hhigh]
      rcases hcond with hc | ⟨_, hc⟩ | ⟨_, hlownot, _⟩ | hc
      · exact absurd hc hra
      · rcases hc with hnone | heqv | ⟨g, g', hg, hg', hlt⟩
        · rw [hnone]
          simp
        · rcases hvi : pyInt v with _ | g'
          · simp
          · rcases hgi : pyInt r.value with _ | g
            · simp
            · rw [heqv] at hvi
              rw [hvi] at hgi
              simp only [Option.some.injEq] at hgi
              by_cases hlt2 : g < g'
              · simp [hlt2]
              · simp [hlt2, heqv]
        · rw [hg', hg]
          simp [hlt]
      · exact absurd hhigh (by rw [hlownot]; simp)
      · rcases hvi : pyInt v with _ | g'
        · simp
        · rcases hgi : pyInt r.value with _ | g
          · simp
          · by_cases hlt2 : g < g'
            · simp [hlt2]
            · simp [hlt2, hc]
    · rw [if_neg hhigh]
      by_cases hlow : containsSub r.message "your answer is too low" = true
      · rw [if_pos hlow]
        rcases hcond with hc | ⟨hc, _⟩ | ⟨_, _, hc⟩ | hc
        · exact absurd hc hra
        · exact absurd hc hhigh
        · rcases hc with hnone | heqv | ⟨g, g', hg, hg', hlt⟩
          · rw [hnone]
            simp
          · rcases hvi : pyInt v with _ | g'
            · simp
            · rcases hgi : pyInt r.value with _ | g
              · simp
              · rw [heqv] at hvi
                rw [hvi] at hgi
                simp only [Option.some.injEq] at hgi
                by_cases hlt2 : g' < g
                · simp [hlt2]
                · simp [hlt2, heqv]
          · rw [hg', hg]
            simp [hlt]
        · rcases hvi : pyInt v with _ | g'
          · simp
          · rcases hgi : pyInt r.value with _ | g
            · simp
            · by_cases hlt2 : g' < g
              · simp [hlt2]
              · simp [hlt2, hc]
      · rw [if_neg hlow]
        rcases hcond with hc | ⟨hc, _⟩ | ⟨hc, _, _⟩ | hc
        · exact absurd hc hra
        · exact absurd hc hhigh
        · exact absurd hc hlow
        · rw [if_neg (by rw [hc]; simp)]
          simp



theorem getAnswer_cache_hit (s : PuzzleState) (p : Part) (txt : String)
    (hfile : answerFile s p = some txt) (hnot : ¬(p = .b ∧ s.day = 25)) :
    getAnswer s p = .ok (strip txt, s) := by
  unfold getAnswer
  rw [if_neg hnot]
  simp only [hfile]

theorem afterChecks_ne_posted (s : PuzzleState) (v : String) (p : Part)
    (h : ∃ a s', getAnswer s p = .ok (a, s') ∧ a ≠ "") :
    afterChecks s v p ≠ .posted := by
  obtain ⟨a, s', hga, hne⟩ := h
  unfold afterChecks checkAlreadySolved
  simp only [hga]
  rw [if_neg hne]
  by_cases hav : a = v
  · rw [if_pos hav]
    simp
  · rw [if_neg hav]
    simp

theorem submit_right_answer_log_ne_posted (s : PuzzleState) (v : String) (p : Part)
    (hr : ∃ r, r ∈ s.submitLog ∧ r.part = p ∧
      startsWithL r.message "That\x27s the right answer" = true ∧ r.value = v) :
    submitDecision s v p ≠ .posted := by
  obtain ⟨r, hmem, hpart, hra, hval⟩ := hr
  exact submitDecision_ne_posted_of_loop s v p
    (checkPrev_ne_proceed v (pyInt v) p r
      (recordAction_hit r v p hpart (rightAnswer_not_skipPrefixed _ hra) (Or.inl hra))
      s.submitLog hmem)

theorem submit_cached_ne_posted (s : PuzzleState) (v : String) (p : Part)
    (hpage : ∀ vb, s.pageAnswerB = some vb → strip vb ≠ "")
    (txt : String) (hfile : answerFile s p = some txt) (hstrip : strip txt = v)
    (hnot25 : ¬(p = .b ∧ s.day = 25)) :
    submitDecision s v p ≠ .posted := by
  unfold submitDecision
  by_cases hv : v = "" ∨ v = "None"
  · rw [if_pos hv]
    simp
  · rw [if_neg hv]
    have hvne : v ≠ "" := fun hh => hv (Or.inl hh)
    rcases hcp : checkPrev v (pyInt v) p s.submitLog with e | lr
    · simp
    · cases lr with
      | refused => simp
      | proceed =>
        dsimp only
        cases p with
        | a =>
          rw [if_neg (by simp)]
          exact afterChecks_ne_posted s v .a
            ⟨strip txt, s, getAnswer_cache_hit s .a txt hfile hnot25, hstrip ▸ hvne⟩
        | b =>
          rw [if_pos rfl]
          have h25 : s.day ≠ 25 := fun hh => hnot25 ⟨rfl, hh⟩
          rcases hap : answerProp s .a with e | os
          · simp
          · rcases os with ⟨optA, s'⟩
            dsimp only
            by_cases heq : optA = some v
            · rw [if_pos heq]
              simp
            · rw [if_neg heq]
              have hmeta := answerProp_meta s .a optA s' hap
              have hday : s'.day = s.day := hmeta.1.1
              have hnot25' : ¬(Part.b = Part.b ∧ s'.day = 25) := by
                rw [hday]
                exact fun hh => h25 hh.2
              rcases answerProp_a_b_file s optA s' hap with hsame | ⟨vb, hvb, hnew⟩
              · refine afterChecks_ne_posted s' v .b
                  ⟨strip txt, s', ?_, hstrip ▸ hvne⟩
                exact getAnswer_cache_hit s' .b txt (hsame ▸ hfile) hnot25'
              · refine afterChecks_ne_posted s' v .b
                  ⟨strip (strip vb), s', ?_, ?_⟩
                · exact getAnswer_cache_hit s' .b (strip vb) hnew hnot25'
                · rw [strip_strip]
                  exact hpage vb hvb



theorem answerSetter_ne_posted (s : PuzzleState) (v : String) (p : Part)
    (hsolved :
      (∃ txt, answerFile s p = some txt ∧ strip txt = v ∧ ¬(p = Part.b ∧ s.day = 25)) ∨
      (∃ r, r ∈ s.submitLog ∧ r.part = p ∧
        startsWithL r.message "That\x27s the right answer" = true ∧ r.value = v)) :
    ∀ d, answerSetter s v p = .submitted d → d ≠ .posted := by
  intro d hd
  unfold answerSetter at hd
  rcases hap : answerProp s p with e | os
  · simp only [hap] at hd
    simp at hd
  · rcases os with ⟨optV, s'⟩
    simp only [hap] at hd
    by_cases heq : optV = some v
    · rw [if_pos heq] at hd
      simp at hd
    · rw [if_neg heq] at hd
      simp at hd
      rcases hsolved with ⟨txt, hfile, hstrip, hnot25⟩ | ⟨r, hmem, hpart, hra, hval⟩
      · exfalso
        apply heq
        have hch := getAnswer_cache_hit s p txt hfile hnot25
        unfold answerProp at hap
        simp only [hch] at hap
        simp at hap
        rw [← hap.1, hstrip]
      · have hlog : s'.submitLog = s.submitLog := (answerProp_meta s p optV s' hap).1.2
        rw [← hd]
        exact submit_right_answer_log_ne_posted s' v p
          ⟨r, by rw [hlog]; exact hmem, hpart, hra, hval⟩

theorem head?_dropWhile_false {α : Type} (p : α → Bool) (l : List α) (x : α)
    (h : (l.dropWhile p).head? = some x) : p x = false := by
  induction l with
  | nil => simp [List.dropWhile] at h
  | cons c t ih =>
    rw [List.dropWhile] at h
    by_cases hc : p c
    · rw [hc] at h
      exact ih (by simpa using h)
    · simp [hc] at h
      subst h
      simpa using hc

theorem rstripNl_getLast? (s : String) (x : Char)
    (h : (rstripNl s).data.getLast? = some x) : isNl x = false := by
  unfold rstripNl at h
  rw [show (String.mk ((s.data.reverse.dropWhile isNl).reverse)).data
      = (s.data.reverse.dropWhile isNl).reverse from rfl] at h
  rw [List.getLast?_reverse] at h
  exact head?_dropWhile_false isNl _ x h

end Aocd

namespace Aocd

theorem fromRaw_not_ok_of_bad_articles (ot : Option String) (arts : List String)
    (ha : arts.length = 0 ∨ 2 < arts.length) :
    ∀ e : Page, fromRaw ⟨ot, arts⟩ ≠ .ok e := by
  intro e
  simp only [fromRaw]
  cases ot with
  | none => simp
  | some t =>
    cases hm : matchTitle t with
    | none => simp [hm]
    | some dy =>
      rcases dy with ⟨d, y⟩
      simp only [hm]
      match arts, ha with
      | [], _ => simp
      | [a], ha => simp at ha
      | [a, b], ha => simp at ha
      | a :: b :: c :: rest, _ => simp

theorem limiterStep_cooloff_le (st : Limiter) (now : ℚ) (h : st.cooloff ≤ 10) :
    (limiterStep st now).1.cooloff ≤ 10 := by
  unfold limiterStep
  split
  · exact min_le_right _ _
  · exact h

theorem runLimiter_cooloff_le (ts : List ℚ) :
    ∀ st : Limiter, st.cooloff ≤ 10 → (runLimiter st ts).cooloff ≤ 10 := by
  induction ts with
  | nil => intro st h; exact h
  | cons t ts ih =>
    intro st h
    exact ih _ (limiterStep_cooloff_le st t h)

/-- Claim C5: with no input cache file, an HTTP status of 404 raises the
distinguishable `PuzzleLockedError`, any other status at or above 400
raises the generic `AocdError`, and in both failure cases no cache file
is written and the failed GET is the only effect. -/
theorem input_fetch_error_paths (resp : Response) (h : 400 ≤ resp.status) :
    (resp.status = 404 → inputData none resp = ⟨.error .puzzleLocked, none, true⟩) ∧
    (resp.status ≠ 404 → inputData none resp = ⟨.error .aocdErr, none, true⟩) := by
  constructor <;> intro h4 <;> simp [inputData, h, h4]

/-- Witness for C5 at concrete statuses 404 and 500. -/
theorem input_fetch_error_paths_witness :
    inputData none ⟨404, "x"⟩ = ⟨.error .puzzleLocked, none, true⟩ ∧
    inputData none ⟨500, "x"⟩ = ⟨.error .aocdErr, none, true⟩ :=
  ⟨(input_fetch_error_paths ⟨404, "x"⟩ (by norm_num)).1 rfl,
   (input_fetch_error_paths ⟨500, "x"⟩ (by norm_num)).2 (by norm_num)⟩

/-- Claim C8: the populating `input_data`/`get_data` call caches the raw
body and returns the stripped text; a second call with the cache file
present returns identical text and issues no GET. -/
theorem input_fetch_idempotent (r1 r2 : Response) (h : r1.status < 400) :
    (inputData none r1 = ⟨.ok (rstripNl r1.body), some r1.body, true⟩) ∧
    (inputData (some r1.body) r2 = ⟨.ok (rstripNl r1.body), some r1.body, false⟩) ∧
    (getData none r1 = ⟨.ok (rstripNl r1.body), some r1.body, true⟩) ∧
    (getData (some r1.body) r2 = ⟨.ok (rstripNl r1.body), some r1.body, false⟩) := by
  have h' : ¬ (400 ≤ r1.status) := by omega
  exact ⟨by simp [inputData, h'], rfl, by simp [getData, h'], rfl⟩

/-- Witness for C8 at a concrete 200 response. -/
theorem input_fetch_idempotent_witness :
    inputData none ⟨200, "fake data for year 2018 day 1\n"⟩ =
      ⟨.ok (rstripNl "fake data for year 2018 day 1\n"),
        some "fake data for year 2018 day 1\n", true⟩ ∧
    inputData (some "fake data for year 2018 day 1\n") ⟨200, "other"⟩ =
      ⟨.ok (rstripNl "fake data for year 2018 day 1\n"),
        some "fake data for year 2018 day 1\n", false⟩ :=
  ⟨(input_fetch_idempotent ⟨200, "fake data for year 2018 day 1\n"⟩ ⟨200, "other"⟩
      (by norm_num)).1,
   (input_fetch_idempotent ⟨200, "fake data for year 2018 day 1\n"⟩ ⟨200, "other"⟩
      (by norm_num)).2.1⟩

/-- Claim C10: `input_data`/`get_data` return the stored text with all
trailing CR/LF stripped while the cache file keeps the unstripped body;
the returned value never ends in a newline, and the cache-hit and
fresh-fetch paths agree for the same stored content. -/
theorem input_text_normalization :
    (∀ d r2, inputData (some d) r2 = ⟨.ok (rstripNl d), some d, false⟩) ∧
    (∀ r : Response, r.status < 400 →
        inputData none r = ⟨.ok (rstripNl r.body), some r.body, true⟩) ∧
    (∀ (s : String) (x : Char), (rstripNl s).data.getLast? = some x →
        x ≠ '\n' ∧ x ≠ '\x0d') ∧
    (∀ d (r1 r2 : Response), r1.status < 400 → r1.body = d →
        (inputData none r1).result = (inputData (some d) r2).result) ∧
    (∀ d r2, getData (some d) r2 = ⟨.ok (rstripNl d), some d, false⟩) := by
  refine ⟨fun d r2 => rfl,
    fun r h => by simp [inputData, show ¬ (400 ≤ r.status) by omega], ?_, ?_,
    fun d r2 => rfl⟩
  · intro s x h
    have hx := rstripNl_getLast? s x h
    unfold isNl at hx
    simp at hx
    exact hx
  · intro d r1 r2 h hb
    subst hb
    simp [inputData, show ¬ (400 ≤ r1.status) by omega]

/-- Witness for C10 at a concrete body with trailing newlines. -/
theorem input_text_normalization_witness :
    inputData (some "data\x0d\n\n") ⟨200, "z"⟩ =
      ⟨.ok (rstripNl "data\x0d\n\n"), some "data\x0d\n\n", false⟩ ∧
    inputData none ⟨200, "data\x0d\n\n"⟩ =
      ⟨.ok (rstripNl "data\x0d\n\n"), some "data\x0d\n\n", true⟩ ∧
    (inputData none ⟨200, "data\x0d\n\n"⟩).result =
      (inputData (some "data\x0d\n\n") ⟨200, "z"⟩).result :=
  ⟨input_text_normalization.1 "data\x0d\n\n" ⟨200, "z"⟩,
   input_text_normalization.2.1 ⟨200, "data\x0d\n\n"⟩ (by norm_num),
   input_text_normalization.2.2.2.1 "data\x0d\n\n" ⟨200, "data\x0d\n\n"⟩ ⟨200, "z"⟩
     (by norm_num) rfl⟩

/-- Claim C6: `_coerce_val` turns a float/complex with zero imaginary part
and integral real part into the decimal string of the integer, with the
warning flag set; non-integral numeric values pass through unchanged
without the flag; plain integers become their decimal string without the
flag; strings pass through unchanged. -/
theorem coerce_val_spec :
    (∀ s, coerceVal (.str s) = (.str s, false)) ∧
    (∀ n, coerceVal (.intV n) = (.str (intStr n), false)) ∧
    (∀ q : ℚ, q.den = 1 → coerceVal (.floatV q) = (.str (intStr q.num), true)) ∧
    (∀ q : ℚ, q.den ≠ 1 → coerceVal (.floatV q) = (.floatV q, false)) ∧
    (∀ re im : ℚ, im = 0 → re.den = 1 →
      coerceVal (.complexV re im) = (.str (intStr re.num), true)) ∧
    (∀ re im : ℚ, im ≠ 0 ∨ re.den ≠ 1 →
      coerceVal (.complexV re im) = (.complexV re im, false)) := by
  refine ⟨fun s => rfl, fun n => rfl, ?_, ?_, ?_, ?_⟩
  · intro q h; simp [coerceVal, h]
  · intro q h; simp [coerceVal, h]
  · intro re im h1 h2; simp [coerceVal, h1, h2]
  · intro re im h
    rcases h with h | h <;> simp [coerceVal, h]

/-- Witness for C6 at concrete values 3.0, 0.5, 4+0j, 4+1j, -7 and a string. -/
theorem coerce_val_spec_witness :
    coerceVal (.floatV 3) = (.str "3", true) ∧
    coerceVal (.floatV (1 / 2)) = (.floatV (1 / 2), false) ∧
    coerceVal (.complexV 4 0) = (.str "4", true) ∧
    coerceVal (.complexV 4 1) = (.complexV 4 1, false) ∧
    coerceVal (.intV (-7)) = (.str "-7", false) ∧
    coerceVal (.str "hi") = (.str "hi", false) := by
  refine ⟨?_, ?_, ?_, ?_, coerce_val_spec.2.1 (-7), coerce_val_spec.1 "hi"⟩
  · have h := coerce_val_spec.2.2.1 3 (by norm_num)
    rwa [show intStr (3 : ℚ).num = "3" from rfl] at h
  · exact coerce_val_spec.2.2.2.1 (1 / 2) (by norm_num)
  · have h := coerce_val_spec.2.2.2.2.1 4 0 rfl (by norm_num)
    rwa [show intStr (4 : ℚ).num = "4" from rfl] at h
  · exact coerce_val_spec.2.2.2.2.2 4 1 (Or.inl (by norm_num))

/-- Counterexample for C2: a cache file holding the correct answer "1" is
overwritten by `_save_correct_answer` with the different value "2"; the
only trace is the `overwrote` outcome (an info-level log line in the
code), no error is raised. -/
theorem save_correct_answer_overwrites_counterexample :
    saveCorrectAnswer (some "1") "2" = (some "2", .overwrote) ∧
    (saveCorrectAnswer (some "1") "2").1 ≠ some "1" := by
  constructor <;> decide

/-- Claim C2 as amended: `_save_correct_answer` detects a contradicting
previous answer by comparing file contents, but resolves it by
overwriting and logging, never by raising; an identical value is not
rewritten, and a first write stores the stripped value. -/
theorem save_correct_answer_behaviour :
    (∀ prev v : String, strip v ≠ prev →
      saveCorrectAnswer (some prev) v = (some (strip v), .overwrote)) ∧
    (∀ prev v : String, strip v = prev →
      saveCorrectAnswer (some prev) v = (some prev, .alreadySaved)) ∧
    (∀ v : String, saveCorrectAnswer none v = (some (strip v), .saved)) := by
  refine ⟨?_, ?_, fun v => rfl⟩ <;> intro prev v h <;> simp [saveCorrectAnswer, h]

/-- Witness for C2 at concrete values. -/
theorem save_correct_answer_behaviour_witness :
    saveCorrectAnswer (some "1") "3" = (some (strip "3"), .overwrote) ∧
    saveCorrectAnswer (some "1") " 1 " = (some "1", .alreadySaved) :=
  ⟨save_correct_answer_behaviour.1 "1" "3" (by decide),
   save_correct_answer_behaviour.2.1 "1" " 1 " (by decide)⟩

/-- Claim C4: for a day-25 puzzle, requesting the part-b answer returns
the empty string instead of raising an unsolved-puzzle error, both via
`_get_answer` directly and through the `answers` tuple, regardless of
the cached state. -/
theorem day25_part_b_answer_empty (s : PuzzleState) (h25 : s.day = 25) :
    getAnswer s .b = .ok ("", s) ∧
    (∀ (pr : String × String) (s'' : PuzzleState),
      answersPair s = .ok (pr, s'') → pr.2 = "") := by
  have hb : ∀ s₁ : PuzzleState, s₁.day = 25 → getAnswer s₁ .b = .ok ("", s₁) := by
    intro s₁ h
    unfold getAnswer
    rw [if_pos ⟨rfl, h⟩]
  refine ⟨hb s h25, ?_⟩
  intro pr s'' h
  unfold answersPair at h
  rcases hga : getAnswer s .a with e | vs
  · simp only [hga] at h
    cases e <;> simp at h
  · rcases vs with ⟨va, s'⟩
    simp only [hga] at h
    have hd : s'.day = 25 := by
      rw [(getAnswer_meta s .a va s' hga).1.1, h25]
    rw [hb s' hd] at h
    rcases pr with ⟨p1, p2⟩
    simp at h
    exact h.1.2.symm

/-- Witness for C4 at a concrete day-25 state with a cached part-a answer. -/
theorem day25_part_b_answer_empty_witness :
    getAnswer day25State .b = .ok ("", day25State) ∧
    (answersPair day25State = .ok (("42", ""), day25State) →
      (("42", "") : String × String).2 = "") :=
  ⟨(day25_part_b_answer_empty day25State rfl).1,
   fun h => (day25_part_b_answer_empty day25State rfl).2 ("42", "") day25State h⟩

end Aocd

namespace Aocd

/-- Counterexample for C1: after the server reported that 5 was too high
for part a, submitting "05" (the same integer bound, spelled with a
different string) passes every local check and a POST is issued, although
the claim requires every guess at or above the bound to be refused; and a
record whose message starts with "You don..t seem to be solving the right
level" is skipped by the loop even though it contains the too-high
phrase, so "10" is POSTed as well. -/
theorem submit_bound_check_misses_counterexample :
    submitDecision tooHighFiveState "05" Part.a = Decision.posted ∧
    submitDecision wrongLevelState "10" Part.a = Decision.posted := by
  constructor <;> rfl

/-- Claim C1 as amended: given a submission-log record for the same part
whose message contains "your answer is too high" (resp. "too low") and
does not start with one of the two skipped prefixes, `_submit` of a
non-numeric value, of the identical string, or of a numeric value
strictly above (resp. strictly below) the recorded bound ends without a
POST; a guess equal to the bound as an integer but written differently
is not covered and may be POSTed. -/
theorem submit_refuses_wrong_side_guess (s : PuzzleState) (v : String) (p : Part)
    (r : SubmitRecord) (hmem : r ∈ s.submitLog) (hpart : r.part = p)
    (hskip : skipPrefixed r.message = false)
    (hcond :
      (containsSub r.message "your answer is too high" = true ∧
        (pyInt v = none ∨ v = r.value ∨
          (∃ g g', pyInt r.value = some g ∧ pyInt v = some g' ∧ g < g'))) ∨
      (containsSub r.message "your answer is too low" = true ∧
        containsSub r.message "your answer is too high" = false ∧
        (pyInt v = none ∨ v = r.value ∨
          (∃ g g', pyInt r.value = some g ∧ pyInt v = some g' ∧ g' < g)))) :
    submitDecision s v p ≠ .posted :=
  submitDecision_ne_posted_of_loop s v p
    (checkPrev_ne_proceed v (pyInt v) p r
      (recordAction_hit r v p hpart hskip
        (Or.inr (hcond.imp id Or.inl)))
      s.submitLog hmem)

/-- Witness for C1: 150 is above the recorded too-high bound 100, so the
submit ends without a POST. -/
theorem submit_refuses_wrong_side_guess_witness :
    submitDecision tooHighState "150" Part.a ≠ Decision.posted :=
  submit_refuses_wrong_side_guess tooHighState "150" Part.a tooHighRecord
    (by simp [tooHighState]) rfl (by decide)
    (Or.inl ⟨by decide, Or.inr (Or.inr ⟨100, 150, by decide, by decide, by decide⟩)⟩)

/-- Claim C3: a part that is already solved - the correct answer is in
the answer cache file (nonempty, and not the synthetic day-25 part-b
empty answer), or the submission log holds a right-answer record for it -
never has the identical value POSTed again, neither via `_submit` nor via
the answer setter; puzzle pages are assumed to reveal only nonempty
answers. -/
theorem resubmit_solved_identical_no_post (s : PuzzleState) (v : String) (p : Part)
    (hpage : ∀ vb, s.pageAnswerB = some vb → strip vb ≠ "")
    (hsolved :
      (∃ txt, answerFile s p = some txt ∧ strip txt = v ∧ ¬(p = Part.b ∧ s.day = 25)) ∨
      (∃ r, r ∈ s.submitLog ∧ r.part = p ∧
        startsWithL r.message "That\x27s the right answer" = true ∧ r.value = v)) :
    submitDecision s v p ≠ .posted ∧
    (∀ d, answerSetter s v p = .submitted d → d ≠ .posted) := by
  constructor
  · rcases hsolved with ⟨txt, hfile, hstrip, hnot25⟩ | hr
    · exact submit_cached_ne_posted s v p hpage txt hfile hstrip hnot25
    · exact submit_right_answer_log_ne_posted s v p hr
  · exact answerSetter_ne_posted s v p hsolved

/-- Witness for C3: re-submitting the cached correct answer 42 ends
without a POST. -/
theorem resubmit_solved_identical_no_post_witness :
    submitDecision solvedAState "42" Part.a ≠ Decision.posted :=
  (resubmit_solved_identical_no_post solvedAState "42" Part.a
    (by simp [solvedAState])
    (Or.inl ⟨"42", rfl, by decide, by simp⟩)).1

/-- Counterexample for C7: on a page whose title does not match,
`Page.from_raw` raises, but `Puzzle._get_examples` catches the error and
returns the empty list with only a logged warning, so no error propagates
to its caller. -/
theorem get_examples_swallows_error_counterexample :
    fromRaw badTitleHtml = .error .parserErr ∧
    getExamples demoParser badTitleHtml = ([], true) := by
  constructor <;> rfl

/-- Claim C7 as amended: malformed markup - a missing or non-matching
title, a missing or non-matching heading, zero prose articles, or more
than two - makes `Page.from_raw` and `Puzzle.title` raise; but
`Puzzle._get_examples` catches any such error, logs a warning and
returns the empty list, so the error does not propagate past it. -/
theorem scraper_malformed_markup_behaviour :
    (∀ h : Html, h.title = none → fromRaw h = .error .attrErr) ∧
    (∀ (h : Html) (t : String), h.title = some t → matchTitle t = none →
      fromRaw h = .error .parserErr) ∧
    (∀ h : Html, h.articles.length = 0 ∨ 2 < h.articles.length →
      ∀ e : Page, fromRaw h ≠ .ok e) ∧
    (∀ day, titleOf day none = .error .aocdErr) ∧
    (∀ day txt, (startsWithL txt ("--- Day " ++ natStr day ++ ": ") &&
        isPrefixL " ---".data.reverse txt.data.reverse) = false →
      titleOf day (some txt) = .error .aocdErr) ∧
    (∀ (p : Page → Except PyErr (List Example)) (h : Html) (e : PyErr),
      fromRaw h = .error e → getExamples p h = ([], true)) := by
  refine ⟨?_, ?_, ?_, fun day => rfl, ?_, ?_⟩
  · intro h ht; simp [fromRaw, ht]
  · intro h t ht hm; simp [fromRaw, ht, hm]
  · intro h ha e
    rcases h with ⟨ot, arts⟩
    exact fromRaw_not_ok_of_bad_articles ot arts ha e
  · intro day txt hcond
    simp only [titleOf]
    rw [hcond]
    simp
  · intro p h e hfr
    simp [getExamples, hfr]

/-- Witness for C7 at concrete malformed pages. -/
theorem scraper_malformed_markup_behaviour_witness :
    fromRaw ⟨none, ["x"]⟩ = .error .attrErr ∧
    fromRaw ⟨some "nope", ["x"]⟩ = .error .parserErr ∧
    (∀ e : Page, fromRaw ⟨some "Day 1 - Advent of Code 2018", []⟩ ≠ .ok e) ∧
    (∀ e : Page, fromRaw ⟨some "Day 1 - Advent of Code 2018", ["x", "y", "z"]⟩ ≠ .ok e) ∧
    titleOf 3 none = .error .aocdErr ∧
    titleOf 3 (some "wrong heading") = .error .aocdErr ∧
    getExamples demoParser ⟨some "nope", ["x"]⟩ = ([], true) := by
  refine ⟨scraper_malformed_markup_behaviour.1 _ rfl,
    scraper_malformed_markup_behaviour.2.1 _ "nope" rfl (by decide),
    scraper_malformed_markup_behaviour.2.2.1 _ (by decide),
    scraper_malformed_markup_behaviour.2.2.1 _ (by decide),
    scraper_malformed_markup_behaviour.2.2.2.1 3,
    scraper_malformed_markup_behaviour.2.2.2.2.1 3 _ (by decide),
    scraper_malformed_markup_behaviour.2.2.2.2.2 demoParser _ .parserErr
      (scraper_malformed_markup_behaviour.2.1 _ "nope" rfl (by decide))⟩

/-- Claim C9: before every GET and POST the limiter is run; it records the
current timestamp in the 4-slot window in every case; when the oldest
recorded timestamp is within 3 seconds of now it sleeps for the current
cooloff and doubles it, capping at 10; from the initial state the cooloff
never exceeds 10 over any request sequence. -/
theorem rate_limiter_behaviour :
    (∀ t0 ts, (runLimiter (initLimiter t0) ts).cooloff ≤ 10) ∧
    (∀ st now, (limiterStep st now).1.history = deqAppend st.history now) ∧
    (∀ st now, now - st.history.headD 0 < 3 →
      limiterStep st now =
        (⟨deqAppend st.history now, min (st.cooloff * 2) 10⟩, some st.cooloff)) ∧
    (∀ st now, ¬ now - st.history.headD 0 < 3 →
      limiterStep st now = (⟨deqAppend st.history now, st.cooloff⟩, none)) ∧
    (∀ st now, httpGet st now =
      ({ limiter := (limiterStep st.limiter now).1, getCount := st.getCount + 1,
         postCount := st.postCount }, (limiterStep st.limiter now).2)) ∧
    (∀ st now, httpPost st now =
      ({ limiter := (limiterStep st.limiter now).1, getCount := st.getCount,
         postCount := st.postCount + 1 }, (limiterStep st.limiter now).2)) ∧
    (∀ (h : List ℚ) (now : ℚ), ∃ pre, deqAppend h now = pre ++ [now]) := by
  refine ⟨?_, ?_, ?_, ?_, ?_, ?_, ?_⟩
  · intro t0 ts
    exact runLimiter_cooloff_le ts _ (by norm_num [initLimiter])
  · intro st now
    unfold limiterStep
    split <;> rfl
  · intro st now h
    unfold limiterStep
    rw [if_pos h]
  · intro st now h
    unfold limiterStep
    rw [if_neg h]
  · intro st now
    unfold httpGet
    rfl
  · intro st now
    unfold httpPost
    rfl
  · intro h now
    refine ⟨h.drop ((h ++ [now]).length - 4), ?_⟩
    unfold deqAppend
    exact List.drop_append_of_le_length (by simp)

/-- Witness for C9: a request 2 seconds after the window start sleeps for
the initial cooloff, one 8 seconds later does not, and a concrete run
stays below the cap. -/
theorem rate_limiter_behaviour_witness :
    limiterStep (initLimiter 0) (-1) =
      (⟨deqAppend (initLimiter 0).history (-1),
        min ((initLimiter 0).cooloff * 2) 10⟩, some (initLimiter 0).cooloff) ∧
    limiterStep (initLimiter 0) 5 =
      (⟨deqAppend (initLimiter 0).history 5, (initLimiter 0).cooloff⟩, none) ∧
    (runLimiter (initLimiter 0) [1, 2, 3]).cooloff ≤ 10 :=
  ⟨rate_limiter_behaviour.2.2.1 _ _ (by simp [initLimiter]),
   rate_limiter_behaviour.2.2.2.1 _ _ (by simp [initLimiter]),
   rate_limiter_behaviour.1 0 [1, 2, 3]⟩

end Aocd
